import Mathlib

/-!
Verification of the `ljprs_es` event-sourcing core (Rust) against its
natural-language specification.

The repository defines four trait contracts (`Event`, `State`, `Aggregate`,
`Store` in `src/src/{event,state,aggregate,store}.rs`) whose only concrete
code is the "Order" doc-comment example that all four files share.  This file
shallowly embeds:

- the fold/replay discipline of `State::apply` (generic over any state and
  event type, since `State` is a trait);
- the concrete `OrderState` / `OrderAggregate` / `Event` doc example, which
  is the only executable code in the repository;
- the `Store::get` / `Store::save` decision procedures, which have no
  implementation under `src/` (the `Store` trait only declares them) and are
  therefore modelled from the spec.

Rust `u128` identifiers are modelled as `Nat`; `f64` monetary amounts as
exact rationals `ℚ` (no claim under study depends on floating-point
rounding); `u32` stream versions as `Nat` reduced modulo `2 ^ 32` wherever
the Rust code performs arithmetic on them.
-/

/-- The size of the `u32` version space: stream versions (`next_version`) and
logical versions are `u32` in the source (`src/src/aggregate.rs`,
`src/src/state.rs` line 84). -/
def u32Size : Nat := 2 ^ 32

/-- Folding an ordered event sequence into a state by repeated
`State::apply` (`src/src/state.rs` line 89: `fn apply(&mut self, event:
&Self::Event)`): the replay loop a `Store` performs when it rebuilds state
from an event stream.  `apply` mutates the state in place in Rust; the
embedding passes the state explicitly, so one replay is a left fold. -/
def replay {σ ε : Type} (apply : σ → ε → σ) (s : σ) (events : List ε) : σ :=
  events.foldl apply s

/-- `OrderCreatedEvent` from the doc example in `src/src/event.rs`. -/
structure OrderCreatedEvent where
  id : Nat
  product_name : String
  balance_owing : ℚ
deriving DecidableEq

/-- `OrderPaymentEvent` from the doc example in `src/src/event.rs`. -/
structure OrderPaymentEvent where
  id : Nat
  amount : ℚ
deriving DecidableEq

/-- `OrderPaidOffEvent` from the doc example in `src/src/event.rs`. -/
structure OrderPaidOffEvent where
  id : Nat
deriving DecidableEq

/-- The `Event` enum from the doc example in `src/src/event.rs` (lines
21-26).  All four source files state that their examples align, so this
three-variant enum is the event kind associated with the example
`OrderState`. -/
inductive Event where
  | OrderCreated : OrderCreatedEvent → Event
  | OrderPayment : OrderPaymentEvent → Event
  | OrderPaidOff : OrderPaidOffEvent → Event
deriving DecidableEq

/-- `Event::type_name` from the doc example in `src/src/event.rs`
(`AsRefStr` renders the variant name). -/
def Event.type_name : Event → String
  | .OrderCreated _ => "OrderCreated"
  | .OrderPayment _ => "OrderPayment"
  | .OrderPaidOff _ => "OrderPaidOff"

/-- `OrderState` from the doc example in `src/src/state.rs`.  The struct as
declared has fields `id`, `product_name`, `balance_owing`; the example's
`apply_order_created` additionally assigns an `is_fully_paid` field, so the
embedding includes it to translate that assignment. -/
structure OrderState where
  id : Nat
  product_name : String
  balance_owing : ℚ
  is_fully_paid : Bool
deriving DecidableEq

/-- `OrderState::default()` (the `Default` derive in the doc example):
every field takes its type's default value. -/
def OrderState.default : OrderState :=
  { id := 0, product_name := "", balance_owing := 0, is_fully_paid := false }

/-- `OrderState::apply_order_created` from the doc example in
`src/src/state.rs`. -/
def OrderState.apply_order_created (s : OrderState) (e : OrderCreatedEvent) :
    OrderState :=
  { s with
    id := e.id
    product_name := e.product_name
    balance_owing := e.balance_owing
    is_fully_paid := false }

/-- `OrderState::apply_order_payment` from the doc example in
`src/src/state.rs`. -/
def OrderState.apply_order_payment (s : OrderState) (e : OrderPaymentEvent) :
    OrderState :=
  { s with balance_owing := s.balance_owing - e.amount }

/-- `OrderState::apply` from the doc example in `src/src/state.rs` (lines
47-53).  The source matches only `Event::OrderCreated` and
`Event::OrderPayment`; the associated event enum's third variant
`Event::OrderPaidOff` has no arm, so the match is not exhaustive and the
embedding returns `none` there. -/
def OrderState.apply (s : OrderState) (e : Event) : Option OrderState :=
  match e with
  | .OrderCreated e => some (s.apply_order_created e)
  | .OrderPayment e => some (s.apply_order_payment e)
  | .OrderPaidOff _ => none

/-- `OrderAggregateError` from the doc example in `src/src/aggregate.rs`. -/
inductive OrderAggregateError where
  | Overpayment
deriving DecidableEq

/-- `OrderAggregate` from the doc example in `src/src/aggregate.rs`:
a state, the next stream version (`u32` in the source) and the ordered list
of pending events. -/
structure OrderAggregate where
  state : OrderState
  next_version : Nat
  pending_events : List Event
deriving DecidableEq

/-- `OrderAggregate::from_state` (doc example, `src/src/aggregate.rs` lines
26-32): wraps the given state and next version with an empty pending-event
list (`Vec::with_capacity(0)`). -/
def OrderAggregate.from_state (state : OrderState) (next_version : Nat) :
    OrderAggregate :=
  { state := state, next_version := next_version, pending_events := [] }

/-- `OrderAggregate::clone_state` (doc example, `src/src/aggregate.rs`). -/
def OrderAggregate.clone_state (a : OrderAggregate) : OrderState :=
  a.state

/-- `OrderAggregate::take` (doc example, `src/src/aggregate.rs` lines 40-42):
moves out `(state, next_version, pending_events)`. -/
def OrderAggregate.take (a : OrderAggregate) :
    OrderState × Nat × List Event :=
  (a.state, a.next_version, a.pending_events)

/-- `OrderAggregate::new` (doc example, `src/src/aggregate.rs` lines 53-69).
The source draws `id` from `rand::thread_rng().gen()`; the embedding takes
the drawn identifier as a parameter.  `state.apply(&event)` dispatches the
`OrderCreated` variant to `apply_order_created`. -/
def OrderAggregate.new (id : Nat) (product_name : String)
    (balance_owing : ℚ) : OrderAggregate :=
  let event := Event.OrderCreated
    { id := id, product_name := product_name, balance_owing := balance_owing }
  let state := OrderState.default.apply_order_created
    { id := id, product_name := product_name, balance_owing := balance_owing }
  { state := state, next_version := 1, pending_events := [event] }

/-- `OrderAggregate::make_payment` (doc example, `src/src/aggregate.rs`
lines 71-87).  `&mut self` with `Result<(), OrderAggregateError>` is
modelled by returning the outcome together with the aggregate after the
call; the `Err` early return leaves the aggregate exactly as it was.
`self.state.apply(&event_payment)` dispatches the `OrderPayment` variant to
`apply_order_payment`; `self.next_version += 1` is `u32` addition, i.e.
addition modulo `2 ^ 32`. -/
def OrderAggregate.make_payment (a : OrderAggregate) (amount : ℚ) :
    Except OrderAggregateError Unit × OrderAggregate :=
  if a.state.balance_owing - amount < 0 then
    (.error .Overpayment, a)
  else
    let event_payment := Event.OrderPayment { id := a.state.id, amount := amount }
    (.ok (),
      { state := a.state.apply_order_payment { id := a.state.id, amount := amount }
        next_version := (a.next_version + 1) % u32Size
        pending_events := a.pending_events ++ [event_payment] })

/-- Running a sequence of `make_payment` commands against an aggregate, one
after the other, keeping the aggregate each call returns (the lifetime of
one `OrderAggregate` across several commands). -/
def OrderAggregate.run_payments (a : OrderAggregate) (amounts : List ℚ) :
    OrderAggregate :=
  amounts.foldl (fun acc amount => (acc.make_payment amount).2) a

/-- A persisted snapshot record as the spec describes it: a serialized
state, the stream version it was taken at, and the logical version of the
fold logic it was computed under (spec §6, §4.4). -/
structure Snapshot (σ : Type) where
  state : σ
  version : Nat
  logical_version : Nat

/-- Modelled from the spec: `Store::get` has no implementation under
`src/` — the `Store` trait in `src/src/store.rs` only declares it.  Decision
procedure from spec §4.4: if a snapshot exists and its logical version
equals the state type's current `logical_version()`, construct the
aggregate via `from_state(snapshot_state, snapshot_version)`; otherwise
fold every event of the stream from version 0 into a freshly defaulted
state and construct the aggregate from that state and the count of events
folded.  The constructed aggregate is represented by its
`(state, next_version)` pair, which is what `from_state` receives. -/
def store_get {σ ε : Type} (logical_version : Nat) (apply : σ → ε → σ)
    (default : σ) (snapshot : Option (Snapshot σ)) (stream : List ε) :
    σ × Nat :=
  match snapshot with
  | some sn =>
      if sn.logical_version = logical_version then
        (sn.state, sn.version)
      else
        (replay apply default stream, stream.length)
  | none => (replay apply default stream, stream.length)

/-- Modelled from the spec: `Store::save` has no implementation under
`src/` — the `Store` trait in `src/src/store.rs` only declares it.  From
spec §4.4/§5: the commit atomically checks that the stream's current
version (the count of committed events) equals the expected prior version
and, only then, appends the pending events; on a mismatch it fails with a
concurrency conflict and leaves the stream unchanged.  The result is the
success flag together with the durable stream after the call. -/
def store_save {ε : Type} (expected_prior : Nat) (pending : List ε)
    (stream : List ε) : Bool × List ε :=
  if stream.length = expected_prior then
    (true, stream ++ pending)
  else
    (false, stream)

/-- C1: for every ordered event sequence `e1..en` and every `k` with
`0 ≤ k ≤ n`, folding all of `e1..en` into a default state equals first
folding `e1..ek` into a default state (the snapshot at version `k`) and
then folding `e(k+1)..en` onto that snapshot. -/
theorem snapshot_replay_equivalence {σ ε : Type} (apply : σ → ε → σ)
    (default : σ) (events : List ε) (k : Nat) (_hk : k ≤ events.length) :
    replay apply default events =
      replay apply (replay apply default (events.take k)) (events.drop k) := by
  rw [replay, replay, replay, ← List.foldl_append, List.take_append_drop]

/-- Witness for C1 at a concrete fold, event list and split point. -/
theorem snapshot_replay_equivalence_witness :
    2 ≤ [(1:Nat), 2, 3].length ∧
      replay Nat.add 0 [1, 2, 3] =
        replay Nat.add (replay Nat.add 0 ([1, 2, 3].take 2)) ([1, 2, 3].drop 2) :=
  ⟨by decide, snapshot_replay_equivalence Nat.add 0 [1, 2, 3] 2 (by decide)⟩

/-- C2: `Store::get` constructs the aggregate directly from a persisted
snapshot via `from_state(snapshot_state, snapshot_version)` exactly when the
snapshot's stored logical version equals the current state type's
`logical_version()`; with no snapshot, or on a logical-version mismatch, it
folds every event of the stream from version 0 into a freshly defaulted
state and pairs the result with the count of events folded. -/
theorem store_get_snapshot_decision {σ ε : Type} (logical_version : Nat)
    (apply : σ → ε → σ) (default : σ) (sn : Snapshot σ) (stream : List ε) :
    (sn.logical_version = logical_version →
        store_get logical_version apply default (some sn) stream = (sn.state, sn.version))
    ∧ (sn.logical_version ≠ logical_version →
        store_get logical_version apply default (some sn) stream
          = (replay apply default stream, stream.length))
    ∧ store_get logical_version apply default none stream
        = (replay apply default stream, stream.length) := by
  refine ⟨fun h => ?_, fun h => ?_, rfl⟩ <;> simp [store_get, h]

/-- Witness for C2: a matching snapshot is used as-is, a stale snapshot and
a missing snapshot both fall back to full replay. -/
theorem store_get_snapshot_decision_witness :
    store_get 0 (fun (s : Nat) (e : Nat) => s + e) 0 (some ⟨7, 5, 0⟩) [1, 2] = (7, 5)
    ∧ store_get 1 (fun (s : Nat) (e : Nat) => s + e) 0 (some ⟨7, 5, 0⟩) [1, 2]
        = (replay (fun (s : Nat) (e : Nat) => s + e) 0 [1, 2], [(1:Nat), 2].length)
    ∧ store_get 0 (fun (s : Nat) (e : Nat) => s + e) 0 none [1, 2]
        = (replay (fun (s : Nat) (e : Nat) => s + e) 0 [1, 2], [(1:Nat), 2].length) :=
  ⟨(store_get_snapshot_decision 0 _ 0 ⟨7, 5, 0⟩ [1, 2]).1 rfl,
   (store_get_snapshot_decision 1 _ 0 ⟨7, 5, 0⟩ [1, 2]).2.1 (by decide),
   (store_get_snapshot_decision 0 _ 0 ⟨7, 5, 0⟩ [1, 2]).2.2⟩

/-- C3: when a `Store::save` commit succeeds, the stream's version (its
committed-event count) strictly increases by exactly the number of pending
events committed; and a second save racing against the same expected prior
version fails with a concurrency conflict and leaves the stream unchanged,
so at most one of the racing calls succeeds. -/
theorem save_monotonic_and_exclusive {ε : Type} (expected : Nat)
    (p₁ p₂ stream : List ε) (h₁ : (store_save expected p₁ stream).1 = true)
    (hp : p₁ ≠ []) :
    (store_save expected p₁ stream).2.length = stream.length + p₁.length
    ∧ stream.length < (store_save expected p₁ stream).2.length
    ∧ (store_save expected p₂ (store_save expected p₁ stream).2).1 = false
    ∧ (store_save expected p₂ (store_save expected p₁ stream).2).2
        = (store_save expected p₁ stream).2 := by
  have hlen : 0 < p₁.length := List.length_pos.mpr hp
  have hc : stream.length = expected := by
    by_contra hne
    simp [store_save, hne] at h₁
  have hc2 : ¬ ((stream ++ p₁).length = expected) := by
    simp only [List.length_append]
    omega
  have hres : store_save expected p₁ stream = (true, stream ++ p₁) := by
    simp [store_save, hc]
  refine ⟨by simp [hres], ?_, ?_, ?_⟩
  · simp [hres]
    omega
  · rw [hres]
    simp only [store_save]
    rw [if_neg hc2]
  · rw [hres]
    simp only [store_save]
    rw [if_neg hc2]

/-- Witness for C3: committing one event onto an empty stream succeeds and
advances the version by one; a second commit against prior version 0 then
fails and leaves the stream as the first commit left it. -/
theorem save_monotonic_and_exclusive_witness :
    (store_save 0 [(10:Nat)] []).1 = true ∧ [(10:Nat)] ≠ []
    ∧ ((store_save 0 [(10:Nat)] []).2.length = List.length ([] : List Nat) + [(10:Nat)].length
      ∧ List.length ([] : List Nat) < (store_save 0 [(10:Nat)] []).2.length
      ∧ (store_save 0 [(20:Nat)] (store_save 0 [(10:Nat)] []).2).1 = false
      ∧ (store_save 0 [(20:Nat)] (store_save 0 [(10:Nat)] []).2).2
          = (store_save 0 [(10:Nat)] []).2) :=
  ⟨by decide, by decide,
   save_monotonic_and_exclusive 0 [10] [20] [] (by decide) (by decide)⟩

/-- C4: folding an event sequence into a default state is deterministic: the
result of `replay` depends only on the ordered sequence of events, so two
replays of the same ordered sequence from the same default state are equal
(in the embedding `State::apply` is a pure function, so each run's result is
the same value of the state type — the "bit-identical" reading). -/
theorem fold_deterministic {σ ε : Type} (apply : σ → ε → σ) (default : σ)
    (l₁ l₂ : List ε) (h : l₁ = l₂) :
    replay apply default l₁ = replay apply default l₂ := by
  rw [h]

/-- Witness for C4 at a concrete fold and event list. -/
theorem fold_deterministic_witness :
    [(1:Nat), 2] = [1, 2]
    ∧ replay Nat.mul 1 [(1:Nat), 2] = replay Nat.mul 1 [(1:Nat), 2] :=
  ⟨rfl, fold_deterministic Nat.mul 1 [1, 2] [1, 2] rfl⟩

/-- One `make_payment` call preserves the lifetime version invariant
`next_version = (v0 + pending_events.length) % 2^32`, where `v0` is the
version the aggregate was constructed from and each pending event is one
event applied in the aggregate's lifetime. -/
lemma make_payment_version_step (v0 : Nat) (a : OrderAggregate) (q : ℚ)
    (h : a.next_version = (v0 + a.pending_events.length) % u32Size) :
    (a.make_payment q).2.next_version
      = (v0 + (a.make_payment q).2.pending_events.length) % u32Size := by
  unfold OrderAggregate.make_payment
  by_cases hc : a.state.balance_owing - q < 0
  · simpa [hc] using h
  · simp only [hc, if_neg, ite_false, List.length_append, List.length_cons,
      List.length_nil]
    rw [h, ← Nat.add_assoc, Nat.add_mod (v0 + a.pending_events.length) 1,
      Nat.mod_eq_of_lt (show 1 < u32Size by norm_num [u32Size])]

/-- Any sequence of `make_payment` calls preserves the lifetime version
invariant of `make_payment_version_step`. -/
lemma run_payments_version (v0 : Nat) (amounts : List ℚ) (a : OrderAggregate)
    (h : a.next_version = (v0 + a.pending_events.length) % u32Size) :
    (a.run_payments amounts).next_version
      = (v0 + (a.run_payments amounts).pending_events.length) % u32Size := by
  induction amounts generalizing a with
  | nil => exact h
  | cons q rest ih =>
      show ((a.make_payment q).2.run_payments rest).next_version = _
      exact ih _ (make_payment_version_step v0 a q h)

/-- C5 (amended): every aggregate in the doc example is born from one of
its two constructors — `from_state(s, v0)`, which applies no event during
construction, or `new(id, product_name, balance_owing)`, which applies
exactly one event during construction and is built from version 0 — and is
then driven through any sequence of commands.  At every point in either
lifetime, `next_version` equals `(constructed-from version + number of
events applied so far in the lifetime) mod 2^32`, the applied count being
the pending-list length since construction and each successful command
append exactly the events they apply; and each successful command applies
exactly one event, appends exactly that event to the pending list, and
sets `next_version` to `(next_version + 1) mod 2^32` (`u32` wraparound).
The unreduced form `next_version = constructed-from + applied` of the
original claim fails at the `u32` bound, see
`next_version_invariant_cex`. -/
theorem next_version_invariant (s : OrderState) (v0 id : Nat)
    (product_name : String) (balance_owing : ℚ) (amounts : List ℚ)
    (a : OrderAggregate) (amount : ℚ) (hv : v0 < u32Size) :
    ((OrderAggregate.from_state s v0).run_payments amounts).next_version
      = (v0 + ((OrderAggregate.from_state s v0).run_payments amounts).pending_events.length)
          % u32Size
    ∧ ((OrderAggregate.new id product_name balance_owing).run_payments amounts).next_version
      = (0 + ((OrderAggregate.new id product_name balance_owing).run_payments
            amounts).pending_events.length) % u32Size
    ∧ ((a.make_payment amount).1 = .ok () →
        (a.make_payment amount).2.pending_events
            = a.pending_events ++ [Event.OrderPayment ⟨a.state.id, amount⟩]
          ∧ (a.make_payment amount).2.next_version = (a.next_version + 1) % u32Size) := by
  refine ⟨run_payments_version v0 amounts _ (by
      simp [OrderAggregate.from_state, Nat.mod_eq_of_lt hv]),
    run_payments_version 0 amounts _ (by
      simp [OrderAggregate.new, Nat.mod_eq_of_lt (show 1 < u32Size by norm_num [u32Size])]),
    ?_⟩
  intro hok
  unfold OrderAggregate.make_payment at hok ⊢
  by_cases hc : a.state.balance_owing - amount < 0
  · simp [hc] at hok
  · simp [hc]

/-- Counterexample for C5 as originally stated: an aggregate constructed at
the largest `u32` version `2^32 - 1` accepts one payment command (one event
applied in its lifetime), yet its `next_version` is not
`(2^32 - 1) + 1` — the `u32` increment wraps to `0` instead. -/
theorem next_version_invariant_cex :
    ((OrderAggregate.from_state OrderState.default (2 ^ 32 - 1)).make_payment 0).1 = .ok ()
    ∧ ((OrderAggregate.from_state OrderState.default (2 ^ 32 - 1)).make_payment 0).2.next_version
        ≠ (2 ^ 32 - 1) + 1 := by
  constructor
  · simp [OrderAggregate.make_payment, OrderAggregate.from_state, OrderState.default]
  · simp [OrderAggregate.make_payment, OrderAggregate.from_state, OrderState.default]
    norm_num [u32Size]

/-- Witness for C5 at concrete aggregates from both constructors and a
concrete command. -/
theorem next_version_invariant_witness :
    0 < u32Size
    ∧ (((OrderAggregate.from_state OrderState.default 0).run_payments []).next_version
        = (0 + ((OrderAggregate.from_state OrderState.default 0).run_payments
            []).pending_events.length) % u32Size
      ∧ ((OrderAggregate.new 1 "" 0).run_payments []).next_version
        = (0 + ((OrderAggregate.new 1 "" 0).run_payments []).pending_events.length) % u32Size
      ∧ (((OrderAggregate.from_state OrderState.default 3).make_payment 0).1 = .ok () →
          ((OrderAggregate.from_state OrderState.default 3).make_payment 0).2.pending_events
              = (OrderAggregate.from_state OrderState.default 3).pending_events
                ++ [Event.OrderPayment ⟨(OrderAggregate.from_state OrderState.default 3).state.id, 0⟩]
            ∧ ((OrderAggregate.from_state OrderState.default 3).make_payment 0).2.next_version
              = ((OrderAggregate.from_state OrderState.default 3).next_version + 1) % u32Size)) :=
  ⟨by decide,
   next_version_invariant OrderState.default 0 1 "" 0 []
     (OrderAggregate.from_state OrderState.default 3) 0 (by decide)⟩

/-- C6: the claim says `OrderState::apply` has a deterministic fold rule for
every variant of its associated event kind and no failure path.  The doc
example's match covers only `OrderCreated` and `OrderPayment`; the aligned
`Event` enum's third variant `OrderPaidOff` has no arm, so `apply` is not
total — this theorem evaluates the embedded `apply` at the uncovered
variant. -/
theorem apply_not_total_on_paid_off :
    OrderState.apply OrderState.default (Event.OrderPaidOff ⟨0⟩) = none :=
  rfl

/-- C7: when `make_payment`'s validation against the current state fails
(the payment would leave a negative balance), the command returns the
domain-specific `Overpayment` error and the aggregate is entirely
unchanged: same state, same pending-event list, same `next_version` — no
event is created and no mutation occurs. -/
theorem make_payment_atomic_on_validation_failure (a : OrderAggregate) (amount : ℚ)
    (h : a.state.balance_owing - amount < 0) :
    (a.make_payment amount).1 = .error .Overpayment
    ∧ (a.make_payment amount).2 = a := by
  unfold OrderAggregate.make_payment
  simp [h]

/-- Witness for C7: overpaying a freshly defaulted order (balance 0,
payment 1) fails with `Overpayment` and leaves the aggregate unchanged. -/
theorem make_payment_atomic_witness :
    (OrderAggregate.from_state OrderState.default 0).state.balance_owing - 1 < 0
    ∧ (((OrderAggregate.from_state OrderState.default 0).make_payment 1).1
          = .error .Overpayment
      ∧ ((OrderAggregate.from_state OrderState.default 0).make_payment 1).2
          = OrderAggregate.from_state OrderState.default 0) :=
  ⟨by simp [OrderAggregate.from_state, OrderState.default],
   make_payment_atomic_on_validation_failure (OrderAggregate.from_state OrderState.default 0) 1
     (by simp [OrderAggregate.from_state, OrderState.default])⟩

/-- C9: an aggregate constructed via `from_state(s, v)` carries an empty
pending-event list, so `take()` applied immediately afterwards returns
exactly `(s, v, [])` — `from_state` followed by `take` is the identity on
`(state, next_version)` and yields no pending events. -/
theorem from_state_take_identity (s : OrderState) (v : Nat) :
    (OrderAggregate.from_state s v).take = (s, v, []) :=
  rfl

/-- C10: stream versions are `u32`: every aggregate operation keeps
`next_version` below `2^32` (so no aggregate represents a version above
`2^32 - 1` and a stream version can count at most `2^32 - 1` committed
events), and a successful command at the bound `2^32 - 1` wraps
`next_version` to `0` instead of extending the count. -/
theorem next_version_u32_bounded (a : OrderAggregate) (amount : ℚ)
    (h : a.next_version < u32Size) :
    (a.make_payment amount).2.next_version < u32Size
    ∧ (a.next_version = u32Size - 1 → (a.make_payment amount).1 = .ok () →
        (a.make_payment amount).2.next_version = 0) := by
  unfold OrderAggregate.make_payment
  by_cases hc : a.state.balance_owing - amount < 0
  · simp [hc, h]
  · refine ⟨?_, ?_⟩
    · simpa [hc] using Nat.mod_lt (a.next_version + 1) (show 0 < u32Size by norm_num [u32Size])
    · intro hb _
      simp [hc, hb]
      norm_num [u32Size]

/-- Witness for C10: an aggregate at version `2^32 - 1` whose successful
payment wraps `next_version` around. -/
theorem next_version_u32_bounded_witness :
    (OrderAggregate.from_state OrderState.default (2 ^ 32 - 1)).next_version < u32Size
    ∧ (((OrderAggregate.from_state OrderState.default (2 ^ 32 - 1)).make_payment 0).2.next_version
          < u32Size
      ∧ ((OrderAggregate.from_state OrderState.default (2 ^ 32 - 1)).next_version = u32Size - 1 →
          ((OrderAggregate.from_state OrderState.default (2 ^ 32 - 1)).make_payment 0).1 = .ok () →
          ((OrderAggregate.from_state OrderState.default (2 ^ 32 - 1)).make_payment 0).2.next_version
            = 0)) :=
  ⟨by decide,
   next_version_u32_bounded (OrderAggregate.from_state OrderState.default (2 ^ 32 - 1)) 0
     (by decide)⟩
